import Mathlib

/-!
Verification development for the input-routing and focus core of the jay
compositor (`src/ifs/wl_seat/handling.rs`).  The definitions below are a
shallow embedding of that file: each Rust function is translated into a
Lean function over an explicit `World` state, and every node-level
notification or bookkeeping operation the code performs is recorded, in
program order, in a trace of `Act`s.  Code of the repository that is
not part of the provided sources (the `Fixed` coordinate type, the node
trait implementations, the `PointerGrab` destructor) is modelled from the
specification and marked as such in its doc comment.
-/

/-- Stable scene-node identity (`NodeId` in the source). -/
abbrev NodeId := Nat

/-- Seat identity (`SeatId` in the source). -/
abbrev SeatId := Nat

/-- Client identity (`ClientId` in the source). -/
abbrev ClientId := Nat

/-- Output identity (`OutputId` in the source). -/
abbrev OutputIdent := Nat

/-- Identity of an xdg toplevel, used for the toplevel focus history. -/
abbrev ToplevelId := Nat

/-- Modelled from the spec: the sub-pixel fixed-point coordinate type
(`crate::fixed::Fixed`, not among the provided sources).  A value is a
rational with integer and fractional parts; we represent it as the
integer numerator of `value / 256`, matching the wire fixed-point format.
Truncation is toward negative infinity so coordinates compose across
nested origins. -/
abbrev Fixed := Int

/-- Modelled from the spec: `Fixed::from_int`. -/
def Fixed.from_int (n : Int) : Fixed := n * 256

/-- Modelled from the spec: `Fixed::round_down`, truncation toward
negative infinity (the "round down to integer" operation). -/
def Fixed.round_down (f : Fixed) : Int := Int.fdiv f 256

/-- Modelled from the spec: `Fixed::apply_fract`, which applies the
fractional part of `f` to a different integer base `i` (used when
delivering a pointer position relative to a node's origin while
preserving the sub-pixel offset). -/
def Fixed.apply_fract (f : Fixed) (i : Int) : Fixed := i * 256 + Int.emod f 256

/-- A modifier snapshot as returned by the external modifier service
(`crate::xkbcommon::ModifierState`). -/
structure ModifierState where
  mods_depressed : Nat
  mods_latched : Nat
  mods_locked : Nat
  group : Nat
deriving DecidableEq

/-- Scroll axis of a scroll event (`crate::backend::ScrollAxis`). -/
inductive ScrollAxis where
  | horizontal
  | vertical
deriving DecidableEq

/-- An entry of the hit-test result (`crate::tree::FoundNode`): a node
together with the query point translated into that node's local space. -/
structure FoundNode where
  node : NodeId
  x : Int
  y : Int
deriving DecidableEq

/-- Key-ordered insertion of `SmallMap::insert` / `AHashSet::insert`
semantics on a list used as a set of identities: inserting an existing
key leaves the set unchanged. -/
def smInsert (l : List Nat) (k : Nat) : List Nat :=
  if k ∈ l then l else l ++ [k]

/-- The per-node seat-state ledger (`NodeSeatState` in the source): for
one node, the seats that hold pointer focus on it, keyboard focus on it,
or a pointer grab of it. -/
structure NodeSeatState where
  pointer_foci : List SeatId
  kb_foci : List SeatId
  grabs : List SeatId
deriving DecidableEq

/-- `NodeSeatState::enter`: register pointer-focus membership. -/
def NodeSeatState.enter (ns : NodeSeatState) (s : SeatId) : NodeSeatState :=
  { ns with pointer_foci := smInsert ns.pointer_foci s }

/-- `NodeSeatState::leave`: remove pointer-focus membership. -/
def NodeSeatState.leave (ns : NodeSeatState) (s : SeatId) : NodeSeatState :=
  { ns with pointer_foci := ns.pointer_foci.erase s }

/-- `NodeSeatState::focus`: register keyboard-focus membership and report
whether this seat is now the only one focusing the node. -/
def NodeSeatState.focus (ns : NodeSeatState) (s : SeatId) : NodeSeatState × Bool :=
  let l := smInsert ns.kb_foci s
  ({ ns with kb_foci := l }, l.length == 1)

/-- `NodeSeatState::unfocus`: remove keyboard-focus membership and report
whether no seat focuses the node any more. -/
def NodeSeatState.unfocus (ns : NodeSeatState) (s : SeatId) : NodeSeatState × Bool :=
  let l := ns.kb_foci.erase s
  ({ ns with kb_foci := l }, l.length == 0)

/-- `NodeSeatState::add_pointer_grab`: record that a seat grabs this node. -/
def NodeSeatState.add_pointer_grab (ns : NodeSeatState) (s : SeatId) : NodeSeatState :=
  { ns with grabs := smInsert ns.grabs s }

/-- `NodeSeatState::remove_pointer_grab`: drop a seat's grab record. -/
def NodeSeatState.remove_pointer_grab (ns : NodeSeatState) (s : SeatId) : NodeSeatState :=
  { ns with grabs := ns.grabs.erase s }

/-- The transient grab field of a seat (`PointerGrabber` in the source):
the grabbed node together with the buttons held while grabbing. -/
structure PointerGrabber where
  node : NodeId
  buttons : List Nat
deriving DecidableEq

/-- The mutable per-seat state of `WlSeatGlobal`. -/
structure SeatState where
  pos : Fixed × Fixed
  pointer_stack : List NodeId
  keyboard_node : NodeId
  pressed_keys : List Nat
  grabber : Option PointerGrabber
  kb_state : Nat
  serial : Nat
  selection : Option Nat
  primary_selection : Option Nat
  toplevel_focus_history : List ToplevelId
  cursor : Option (Int × Int)
deriving DecidableEq

/-- The whole mutable state visible to the seat dispatch code: every
seat's state, every node's seat-state ledger, and the global
"tree changed" signal of `State`. -/
structure World where
  seats : SeatId → SeatState
  nodes : NodeId → NodeSeatState
  treeChanged : Bool

/-- The static collaborators of the dispatch code: the scene graph
(hit testing, absolute positions, node/client ownership), the output
map, and the external modifier service. -/
structure Scene where
  root : NodeId
  outputs : List (OutputIdent × (Int × Int))
  findTreeAt : Int → Int → List FoundNode
  absPos : NodeId → Int × Int
  clientId : NodeId → Option ClientId
  surfaceClient : NodeId → ClientId
  focusSurfaceOf : ToplevelId → NodeId
  kbUpdate : Nat → Nat → Bool → Option ModifierState × Nat
  kbMods : Nat → ModifierState

/-- One observable step of the dispatch layer: a node-level notification
(`enter`, `leave`, `motion`, ...), a seat-state bookkeeping operation, or
a protocol-level send performed by the callbacks in `handling.rs`.  The
actions of one event are recorded in the order the code performs them. -/
inductive Act where
  | enter (n : NodeId) (x y : Fixed)
  | leave (n : NodeId)
  | motion (n : NodeId) (x y : Fixed)
  | button (n : NodeId) (code : Nat) (pressed : Bool)
  | scroll (n : NodeId) (delta : Int) (axis : ScrollAxis)
  | pointerTarget (n : NodeId)
  | pointerUntarget (n : NodeId)
  | fociEnter (n : NodeId) (s : SeatId)
  | fociLeave (n : NodeId) (s : SeatId)
  | grabRegistered (n : NodeId) (s : SeatId)
  | grabDeregistered (n : NodeId) (s : SeatId)
  | focus (n : NodeId)
  | unfocus (n : NodeId)
  | activeChanged (n : NodeId) (active : Bool)
  | kbSendEnter (n : NodeId) (keys : List Nat)
  | kbSendKey (n : NodeId) (code : Nat) (pressed : Bool)
  | kbSendModifiers (n : NodeId) (m : ModifierState)
  | modServiceCall (code : Nat) (down : Bool)
  | createOffer (c : ClientId)
  | createPrimaryOffer (c : ClientId)
  | sendSelectionNone (c : ClientId)
  | sendPrimarySelectionNone (c : ClientId)
deriving DecidableEq

/-- Replace one seat's state. -/
def World.updSeat (w : World) (s : SeatId) (f : SeatState → SeatState) : World :=
  { w with seats := fun s' => if s' = s then f (w.seats s) else w.seats s' }

/-- Replace one node's seat-state ledger. -/
def World.updNode (w : World) (n : NodeId) (f : NodeSeatState → NodeSeatState) : World :=
  { w with nodes := fun n' => if n' = n then f (w.nodes n) else w.nodes n' }

@[simp]
theorem World.updSeat_seats_self (w : World) (s : SeatId) (f : SeatState → SeatState) :
    (w.updSeat s f).seats s = f (w.seats s) := by
  simp [World.updSeat]

@[simp]
theorem World.updSeat_seats_ne (w : World) (s s' : SeatId) (f : SeatState → SeatState)
    (h : s' ≠ s) : (w.updSeat s f).seats s' = w.seats s' := by
  simp [World.updSeat, h]

@[simp]
theorem World.updSeat_nodes (w : World) (s : SeatId) (f : SeatState → SeatState) :
    (w.updSeat s f).nodes = w.nodes := rfl

@[simp]
theorem World.updSeat_treeChanged (w : World) (s : SeatId) (f : SeatState → SeatState) :
    (w.updSeat s f).treeChanged = w.treeChanged := rfl

@[simp]
theorem World.updNode_nodes_self (w : World) (n : NodeId) (f : NodeSeatState → NodeSeatState) :
    (w.updNode n f).nodes n = f (w.nodes n) := by
  simp [World.updNode]

@[simp]
theorem World.updNode_nodes_ne (w : World) (n n' : NodeId) (f : NodeSeatState → NodeSeatState)
    (h : n' ≠ n) : (w.updNode n f).nodes n' = w.nodes n' := by
  simp [World.updNode, h]

@[simp]
theorem World.updNode_seats (w : World) (n : NodeId) (f : NodeSeatState → NodeSeatState) :
    (w.updNode n f).seats = w.seats := rfl

@[simp]
theorem World.updNode_treeChanged (w : World) (n : NodeId) (f : NodeSeatState → NodeSeatState) :
    (w.updNode n f).treeChanged = w.treeChanged := rfl

/-- The first index at which the freshly computed hit path and the
current pointer stack differ (the shorter length if one is a prefix of
the other), exactly as computed by the loop in
`WlSeatGlobal::handle_new_position`. -/
def divergenceIdx : List FoundNode → List NodeId → Nat
  | f :: ft, s :: st => if f.node = s then divergenceIdx ft st + 1 else 0
  | _, _ => 0

/-- The pop loop of `NodeSeatState::destroy_node` on a reversed stack:
pop elements until the destroyed node's id is popped (inclusive). -/
def popThroughRev (node : NodeId) : List NodeId → List NodeId
  | [] => []
  | x :: xs => if x = node then xs else popThroughRev node xs

/-- Pop a seat's pointer stack from the top down to and including the
destroyed node (everything if the node is absent), as done by
`NodeSeatState::destroy_node`. -/
def popThrough (l : List NodeId) (node : NodeId) : List NodeId :=
  (popThroughRev node l.reverse).reverse

/-- `WlSeatGlobal::pointer_node`: the leaf of the pointer-focus stack. -/
def pointer_node (w : World) (sid : SeatId) : Option NodeId :=
  (w.seats sid).pointer_stack.getLast?

/-- `WlSeatGlobal::handle_new_position`: the core reconciliation
algorithm.  If a grab is active the pointer stack is left untouched and
(for an actual position change) `motion` is delivered to the grab target
at the position translated into the target's local space; otherwise the
hit path is recomputed from the root and reconciled against the pointer
stack around the divergence index. -/
def handle_new_position (sc : Scene) (w : World) (sid : SeatId) (pos_changed : Bool) :
    World × List Act :=
  let st := w.seats sid
  let x := st.pos.1
  let y := st.pos.2
  let w :=
    if pos_changed then
      w.updSeat sid fun s =>
        { s with cursor := s.cursor.map fun _ => (x.round_down, y.round_down) }
    else w
  match st.grabber with
  | some g =>
    if pos_changed then
      let p := sc.absPos g.node
      let x_int := x.round_down - p.1
      let y_int := y.round_down - p.2
      (w, [Act.motion g.node (x.apply_fract x_int) (y.apply_fract y_int)])
    else (w, [])
  | none =>
    let x_int := x.round_down
    let y_int := y.round_down
    let found_tree : List FoundNode :=
      ⟨sc.root, x_int, y_int⟩ :: sc.findTreeAt x_int y_int
    let stack := st.pointer_stack
    let d := divergenceIdx found_tree stack
    if stack.length = d ∧ found_tree.length = d then
      match found_tree.getLast? with
      | some f =>
        (w, if pos_changed then [Act.motion f.node (x.apply_fract f.x) (y.apply_fract f.y)] else [])
      | none => (w, [])
    else
      let untargetTr : List Act :=
        match stack.getLast? with
        | some l => [Act.pointerUntarget l]
        | none => []
      let removed := (stack.drop d).reverse
      let w := removed.foldl (fun w n => w.updNode n fun ns => ns.leave sid) w
      let leaveTr := removed.flatMap fun n => [Act.leave n, Act.fociLeave n sid]
      if found_tree.length = d then
        let motionTr : List Act :=
          match found_tree.getLast? with
          | some f => [Act.motion f.node (x.apply_fract f.x) (y.apply_fract f.y)]
          | none => []
        let newStack := stack.take d
        let targetTr : List Act :=
          match newStack.getLast? with
          | some l => [Act.pointerTarget l]
          | none => []
        let w := w.updSeat sid fun s => { s with pointer_stack := newStack }
        (w, untargetTr ++ leaveTr ++ motionTr ++ targetTr)
      else
        let entered := found_tree.drop d
        let w := entered.foldl (fun w f => w.updNode f.node fun ns => ns.enter sid) w
        let enterTr := entered.flatMap fun f =>
          [Act.fociEnter f.node sid, Act.enter f.node (x.apply_fract f.x) (y.apply_fract f.y)]
        let newStack := stack.take d ++ entered.map (·.node)
        let targetTr : List Act :=
          match newStack.getLast? with
          | some l => [Act.pointerTarget l]
          | none => []
        let w := w.updSeat sid fun s => { s with pointer_stack := newStack }
        (w, untargetTr ++ leaveTr ++ enterTr ++ targetTr)

/-- `WlSeatGlobal::set_new_position`: store the new position, then run
the reconciliation with `pos_changed = true`. -/
def set_new_position (sc : Scene) (w : World) (sid : SeatId) (x y : Fixed) :
    World × List Act :=
  let w := w.updSeat sid fun s => { s with pos := (x, y) }
  handle_new_position sc w sid true

/-- `WlSeatGlobal::tree_changed`: re-run the reconciliation at the
existing position. -/
def seat_tree_changed (sc : Scene) (w : World) (sid : SeatId) : World × List Act :=
  handle_new_position sc w sid false

/-- `WlSeatGlobal::motion_event`: relative motion added to the current
position. -/
def motion_event (sc : Scene) (w : World) (sid : SeatId) (dx dy : Fixed) :
    World × List Act :=
  let p := (w.seats sid).pos
  set_new_position sc w sid (p.1 + dx) (p.2 + dy)

/-- `WlSeatGlobal::output_position_event`: resolve an output-relative
position to an absolute one by adding the output's origin; an unknown
output identifier drops the event. -/
def output_position_event (sc : Scene) (w : World) (sid : SeatId)
    (output : OutputIdent) (x y : Fixed) : World × List Act :=
  match sc.outputs.lookup output with
  | none => (w, [])
  | some o => set_new_position sc w sid (x + Fixed.from_int o.1) (y + Fixed.from_int o.2)

/-- `WlSeatGlobal::button_event`.  With an active grab, a press adds the
code to the held set and a release removes it; when the held set becomes
empty the grab record is removed from the target's seat-state and —
modelled from the spec, the `PointerGrab` destructor being outside the
provided sources — the seat's grab field is reset to none.  In every
grabber branch the button is then delivered to the grab target.  With no
grab, a press hit-targets the current pointer-stack leaf and creates the
grab; a release is dropped. -/
def button_event (w : World) (sid : SeatId) (button : Nat) (pressed : Bool) :
    World × List Act :=
  let st := w.seats sid
  match st.grabber with
  | some pg =>
    if pressed then
      let w := w.updSeat sid fun s =>
        { s with grabber := some { pg with buttons := smInsert pg.buttons button } }
      (w, [Act.button pg.node button true])
    else
      let bs := pg.buttons.erase button
      let w := w.updSeat sid fun s => { s with grabber := some { pg with buttons := bs } }
      if bs.isEmpty then
        let w := w.updNode pg.node fun ns => ns.remove_pointer_grab sid
        let w := w.updSeat sid fun s => { s with grabber := none }
        (w, [Act.grabDeregistered pg.node sid, Act.button pg.node button false])
      else
        (w, [Act.button pg.node button false])
  | none =>
    if pressed then
      match pointer_node w sid with
      | some n =>
        let w := w.updSeat sid fun s =>
          { s with grabber := some { node := n, buttons := [button] } }
        let w := w.updNode n fun ns => ns.add_pointer_grab sid
        (w, [Act.grabRegistered n sid, Act.button n button true])
      | none => (w, [])
    else (w, [])

/-- `WlSeatGlobal::scroll_event`: delivered to the grab target if
grabbing, else to the pointer-stack leaf, else dropped. -/
def scroll_event (w : World) (sid : SeatId) (delta : Int) (axis : ScrollAxis) :
    World × List Act :=
  match (w.seats sid).grabber with
  | some g => (w, [Act.scroll g.node delta axis])
  | none =>
    match pointer_node w sid with
    | some n => (w, [Act.scroll n delta axis])
    | none => (w, [])

/-- `WlSeatGlobal::key_event` together with the `key_surface` delivery
callback: de-duplicate against the pressed-key set, feed the external
modifier service, deliver the key to the keyboard-focus node and then
the modifier snapshot when the service reported a change. -/
def key_event (sc : Scene) (w : World) (sid : SeatId) (key : Nat) (pressed : Bool) :
    World × List Act :=
  let st := w.seats sid
  if pressed then
    if key ∈ st.pressed_keys then (w, [])
    else
      let upd := sc.kbUpdate st.kb_state key true
      let node := st.keyboard_node
      let w := w.updSeat sid fun s =>
        { s with pressed_keys := s.pressed_keys ++ [key], kb_state := upd.2,
                 serial := s.serial + 2 }
      (w, [Act.modServiceCall key true, Act.kbSendKey node key true] ++
        match upd.1 with
        | some m => [Act.kbSendModifiers node m]
        | none => [])
  else
    if key ∈ st.pressed_keys then
      let upd := sc.kbUpdate st.kb_state key false
      let node := st.keyboard_node
      let w := w.updSeat sid fun s =>
        { s with pressed_keys := s.pressed_keys.erase key, kb_state := upd.2,
                 serial := s.serial + 2 }
      (w, [Act.modServiceCall key false, Act.kbSendKey node key false] ++
        match upd.1 with
        | some m => [Act.kbSendModifiers node m]
        | none => [])
    else (w, [])

/-- `WlSeatGlobal::focus_surface`: keyboard-focus transfer.  A no-op if
the target is already focused; otherwise the old node is unfocused (with
a client-activity edge when it loses its last focusing seat), the new
node is focused (with a client-activity edge when this is its first
focusing seat), the seat's keyboard-focus pointer moves, the pressed
keys and the current modifier snapshot are replayed to the new node, and
clipboard state is renegotiated when the focus crossed a client
boundary. -/
def focus_surface (sc : Scene) (w : World) (sid : SeatId) (n : NodeId) :
    World × List Act :=
  let st := w.seats sid
  let old := st.keyboard_node
  if old = n then (w, [])
  else
    let u := (w.nodes old).unfocus sid
    let w := w.updNode old fun _ => u.1
    let tr := [Act.unfocus old] ++ (if u.2 then [Act.activeChanged old false] else [])
    let f := (w.nodes n).focus sid
    let w := w.updNode n fun _ => f.1
    let tr := tr ++ (if f.2 then [Act.activeChanged n true] else []) ++ [Act.focus n]
    let w := w.updSeat sid fun s => { s with keyboard_node := n }
    let pressed := (w.seats sid).pressed_keys
    let w := w.updSeat sid fun s => { s with serial := s.serial + 1 }
    let tr := tr ++ [Act.kbSendEnter n pressed]
    let m := sc.kbMods (w.seats sid).kb_state
    let w := w.updSeat sid fun s => { s with serial := s.serial + 1 }
    let tr := tr ++ [Act.kbSendModifiers n m]
    let c := sc.surfaceClient n
    let tr := tr ++
      (if sc.clientId old ≠ some c then
        (match st.selection with
         | none => [Act.sendSelectionNone c]
         | some _ => [Act.createOffer c]) ++
        (match st.primary_selection with
         | none => [Act.sendPrimarySelectionNone c]
         | some _ => [Act.createPrimaryOffer c])
       else [])
    (w, tr)

/-- `WlSeatGlobal::focus_xdg_surface`: focus the surface that currently
holds an xdg surface's keyboard focus.  The resolution of a toplevel to
that surface (`XdgSurface::focus_surface`) is outside the provided
sources and is modelled from the spec by `Scene.focusSurfaceOf`. -/
def focus_xdg_surface (sc : Scene) (w : World) (sid : SeatId) (tl : ToplevelId) :
    World × List Act :=
  focus_surface sc w sid (sc.focusSurfaceOf tl)

/-- `WlSeatGlobal::focus_toplevel`: move the toplevel to the
most-recently-used end of the seat's toplevel focus history (the handle
stored on the toplevel removes the previous entry, modelled from the
spec's O(1)-removal MRU list), then focus it. -/
def focus_toplevel (sc : Scene) (w : World) (sid : SeatId) (tl : ToplevelId) :
    World × List Act :=
  let w := w.updSeat sid fun s =>
    { s with toplevel_focus_history := s.toplevel_focus_history.erase tl ++ [tl] }
  focus_xdg_surface sc w sid tl

/-- One iteration of the grab-clearing loop of
`NodeSeatState::destroy_node`: dropping the `PointerGrab` stored for a
seat resets that seat's grab field to none (modelled from the spec, the
`PointerGrab` destructor being outside the provided sources). -/
def grabClearStep (w : World) (s : SeatId) : World :=
  w.updSeat s fun st => { st with grabber := none }

/-- One iteration of the pointer-focus loop of
`NodeSeatState::destroy_node`: pop the seat's stack down to and
including the destroyed node and raise the global tree-changed signal. -/
def ptrClearStep (node : NodeId) (w : World) (s : SeatId) : World :=
  let w := w.updSeat s fun st =>
    { st with pointer_stack := popThrough st.pointer_stack node }
  { w with treeChanged := true }

/-- One iteration of the keyboard-focus loop of
`NodeSeatState::destroy_node`: reset the seat's keyboard focus to the
scene root, then refocus the most-recently-used toplevel of its focus
history when the history is non-empty. -/
def kbClearStep (sc : Scene) (acc : World × List Act) (s : SeatId) : World × List Act :=
  let w := acc.1.updSeat s fun st => { st with keyboard_node := sc.root }
  match (w.seats s).toplevel_focus_history.getLast? with
  | some tl =>
    let r := focus_xdg_surface sc w s tl
    (r.1, acc.2 ++ r.2)
  | none => (w, acc.2)

/-- `NodeSeatState::destroy_node`: the mandatory cleanup entry point.
Clears the node's grab records — dropping each `PointerGrab` resets the
owning seat's grab field to none (modelled from the spec, the
`PointerGrab` destructor being outside the provided sources) — then pops
every pointer-focusing seat's stack down to and including this node and
raises the global tree-changed signal, and finally resets every
keyboard-focusing seat to the scene root, refocusing the
most-recently-used toplevel from its focus history when there is one. -/
def destroy_node (sc : Scene) (w : World) (node : NodeId) : World × List Act :=
  let ns := w.nodes node
  let w := ns.grabs.foldl grabClearStep w
  let w := w.updNode node fun n => { n with grabs := [] }
  let w := ns.pointer_foci.reverse.foldl (ptrClearStep node) w
  let w := w.updNode node fun n => { n with pointer_foci := [] }
  let r := ns.kb_foci.reverse.foldl (kbClearStep sc) (w, [])
  let w := r.1.updNode node fun n => { n with kb_foci := [] }
  (w, r.2)

/-- Recognizer for `button` delivery actions. -/
def Act.isButton : Act → Bool
  | .button _ _ _ => true
  | _ => false

/-- Recognizer for grab-deregistration bookkeeping actions. -/
def Act.isGrabDereg : Act → Bool
  | .grabDeregistered _ _ => true
  | _ => false

/-- Recognizer for `enter`/`leave` notifications. -/
def Act.isEnterLeave : Act → Bool
  | .enter _ _ _ => true
  | .leave _ => true
  | _ => false

/-- Recognizer for regular-selection renegotiation actions. -/
def Act.isRegSelection : Act → Bool
  | .createOffer _ => true
  | .sendSelectionNone _ => true
  | _ => false

/-- Recognizer for primary-selection renegotiation actions. -/
def Act.isPrimSelection : Act → Bool
  | .createPrimaryOffer _ => true
  | .sendPrimarySelectionNone _ => true
  | _ => false

/-- Recognizer for `active_changed` notifications. -/
def Act.isActiveChanged : Act → Bool
  | .activeChanged _ _ => true
  | _ => false

/-- A concrete seat state used by the witnesses below. -/
def exSeat : SeatState := {
  pos := (0, 0), pointer_stack := [], keyboard_node := 0, pressed_keys := []
  grabber := none, kb_state := 0, serial := 0, selection := none
  primary_selection := none, toplevel_focus_history := [], cursor := none }

/-- A concrete scene used by the witnesses below: node 0 is the root,
output 1 sits at (100, 200), the hit test finds nodes 1 and 2 under
every point, nodes 10 and 11 belong to client 3, node 12 to client 4. -/
def exScene : Scene := {
  root := 0
  outputs := [(1, (100, 200))]
  findTreeAt := fun x y => [⟨1, x - 10, y - 10⟩, ⟨2, x - 20, y - 20⟩]
  absPos := fun n => (Int.ofNat n * 16, Int.ofNat n * 16)
  clientId := fun n => if n = 0 then none else if n ≤ 11 then some 3 else some 4
  surfaceClient := fun n => if n ≤ 11 then 3 else 4
  focusSurfaceOf := fun tl => tl + 100
  kbUpdate := fun st k _ => (if k % 2 = 0 then some ⟨k, 0, 0, 0⟩ else none, st + 1)
  kbMods := fun st => ⟨st, 0, 0, 0⟩ }

/-- A concrete world used by the witnesses below: every seat in the
default state, every ledger empty. -/
def exWorld : World := {
  seats := fun _ => exSeat
  nodes := fun _ => ⟨[], [], []⟩
  treeChanged := false }

/-- C10: an `OutputRelativeMotion` event naming an output identifier not
present in the compositor's output map is dropped before
`set_new_position` runs: the world is returned unchanged (position,
pointer stack, grab state, keyboard focus untouched) and no action of
any kind is emitted. -/
theorem c10_unknown_output_noop (sc : Scene) (w : World) (sid : SeatId)
    (o : OutputIdent) (x y : Fixed) (h : sc.outputs.lookup o = none) :
    output_position_event sc w sid o x y = (w, []) := by
  simp [output_position_event, h]

/-- Witness for C10 at a concrete unknown output identifier. -/
theorem c10_unknown_output_noop_witness :
    output_position_event exScene exWorld 0 5 3 4 = (exWorld, []) :=
  c10_unknown_output_noop exScene exWorld 0 5 3 4 (by decide)

/-- C1: while a grab is active, a relative-motion event and an
output-relative motion event both leave the pointer-focus stack and
every node ledger unchanged (so no enter/leave/pointer_target/
pointer_untarget and no push or pop happens), keep the grab, and emit
exactly one `motion` delivered to the grab target at the new position
translated into the target's local space, whatever the hit test would
say. -/
theorem c1_grab_overrides_hit_testing (sc : Scene) (w : World) (sid : SeatId)
    (g : PointerGrabber) (x y dx dy ex ey : Fixed) (o : OutputIdent) (ox oy : Int)
    (hg : (w.seats sid).grabber = some g)
    (hpos : (w.seats sid).pos = (x, y)) :
    ((motion_event sc w sid dx dy).2 =
        [Act.motion g.node
          ((x + dx).apply_fract ((x + dx).round_down - (sc.absPos g.node).1))
          ((y + dy).apply_fract ((y + dy).round_down - (sc.absPos g.node).2))] ∧
      (((motion_event sc w sid dx dy).1.seats sid).pointer_stack =
        (w.seats sid).pointer_stack) ∧
      ((motion_event sc w sid dx dy).1.seats sid).grabber = some g ∧
      (motion_event sc w sid dx dy).1.nodes = w.nodes) ∧
    (sc.outputs.lookup o = some (ox, oy) →
      (output_position_event sc w sid o ex ey).2 =
        [Act.motion g.node
          ((ex + Fixed.from_int ox).apply_fract
            ((ex + Fixed.from_int ox).round_down - (sc.absPos g.node).1))
          ((ey + Fixed.from_int oy).apply_fract
            ((ey + Fixed.from_int oy).round_down - (sc.absPos g.node).2))] ∧
      (((output_position_event sc w sid o ex ey).1.seats sid).pointer_stack =
        (w.seats sid).pointer_stack) ∧
      ((output_position_event sc w sid o ex ey).1.seats sid).grabber = some g ∧
      (output_position_event sc w sid o ex ey).1.nodes = w.nodes) := by
  constructor
  · simp [motion_event, set_new_position, handle_new_position, hg, hpos]
  · intro ho
    simp [output_position_event, ho, set_new_position, handle_new_position, hg]

/-- A concrete world with a grab of node 2 held with button 7 and the
pointer stack `[0, 1, 2]`, used by the C1 witness. -/
def exGrabWorld : World := { exWorld with seats := fun _ =>
  { exSeat with pointer_stack := [0, 1, 2], grabber := some ⟨2, [7]⟩ } }

/-- Witness for C1: the concrete grab of node 2, moved by one pixel. -/
theorem c1_grab_overrides_hit_testing_witness :
    (motion_event exScene exGrabWorld 0 256 256).2 = [Act.motion 2 (-7936) (-7936)] ∧
    ((motion_event exScene exGrabWorld 0 256 256).1.seats 0).pointer_stack = [0, 1, 2] ∧
    ((motion_event exScene exGrabWorld 0 256 256).1.seats 0).grabber = some ⟨2, [7]⟩ ∧
    (motion_event exScene exGrabWorld 0 256 256).1.nodes = exGrabWorld.nodes := by
  have h := (c1_grab_overrides_hit_testing exScene exGrabWorld 0 ⟨2, [7]⟩ 0 0 256 256 0 0 1
    100 200 (by decide) (by decide)).1
  simpa [exScene] using h

/-- A concrete world with a grab of node 3 held with button 7 only,
used by the C3 and C4 refutations. -/
def exGrab3World : World := { exWorld with seats := fun _ =>
  { exSeat with pointer_stack := [0, 1, 3], grabber := some ⟨3, [7]⟩ } }

/-- C3 counterexample: releasing the last held button 7 of the concrete
grab of node 3 first deregisters the grab from the node's seat-state
(trace index 0) and only then delivers `button(released)` to the target
(trace index 1) — the claimed order "deliver first, then release the
grab" does not hold on the code. -/
theorem c3_release_order_counterexample :
    (button_event exGrab3World 0 7 false).2 =
      [Act.grabDeregistered 3 0, Act.button 3 7 false] ∧
    (button_event exGrab3World 0 7 false).2.findIdx? Act.isGrabDereg = some 0 ∧
    (button_event exGrab3World 0 7 false).2.findIdx? Act.isButton = some 1 := by
  decide

/-- C3 amended: on a button release with an active grab, the released
code is removed from `buttons_held`; if the set became empty the grab is
released first (deregistered from the target node's seat-state, the
seat's grab field reset to none) and `button(released)` is delivered to
the grab target after that, so subsequent position updates hit-test
normally; if the set is still non-empty the grab survives unchanged and
only the button delivery happens. -/
theorem c3_grab_end_transition (w : World) (sid : SeatId) (pg : PointerGrabber) (b : Nat)
    (hg : (w.seats sid).grabber = some pg) :
    (pg.buttons.erase b = [] →
      (button_event w sid b false).2 =
        [Act.grabDeregistered pg.node sid, Act.button pg.node b false] ∧
      ((button_event w sid b false).1.seats sid).grabber = none ∧
      ((button_event w sid b false).1.nodes pg.node).grabs =
        (w.nodes pg.node).grabs.erase sid) ∧
    (pg.buttons.erase b ≠ [] →
      (button_event w sid b false).2 = [Act.button pg.node b false] ∧
      ((button_event w sid b false).1.seats sid).grabber =
        some { pg with buttons := pg.buttons.erase b } ∧
      (button_event w sid b false).1.nodes = w.nodes) := by
  constructor
  · intro he
    simp [button_event, hg, he, NodeSeatState.remove_pointer_grab]
  · intro he
    simp [button_event, hg, List.isEmpty_iff, he]

/-- Witness for the amended C3 at the concrete grab of node 3: the
release of button 7 empties the held set, clears the grab and delivers
the button after the deregistration. -/
theorem c3_grab_end_transition_witness :
    (button_event exGrab3World 0 7 false).2 =
      [Act.grabDeregistered 3 0, Act.button 3 7 false] ∧
    ((button_event exGrab3World 0 7 false).1.seats 0).grabber = none ∧
    ((button_event exGrab3World 0 7 false).1.nodes 3).grabs =
      ((exGrab3World.nodes 3).grabs).erase 0 :=
  (c3_grab_end_transition exGrab3World 0 ⟨3, [7]⟩ 7 (by decide)).1 (by decide)

/-- C4 counterexample: with the concrete grab of node 3 holding only
button 7, a release event for the untracked button 9 still delivers a
`button(released)` notification to the grab target, contradicting the
claim that it produces no delivered button event. -/
theorem c4_stale_release_counterexample :
    (button_event exGrab3World 0 9 false).2 = [Act.button 3 9 false] ∧
    (button_event exGrab3World 0 9 false).2.any Act.isButton = true := by
  decide

/-- C4 amended: while a grab is active, a release event for a button
code not in `buttons_held` leaves `buttons_held`, the grab target, the
seat's grab field and every node ledger unchanged and does not end the
grab, but `button(released)` is still delivered to the grab target; with
no grab active, any release event is dropped without effect. -/
theorem c4_stale_release_keeps_grab (w : World) (sid : SeatId) (b : Nat) :
    (∀ pg : PointerGrabber, (w.seats sid).grabber = some pg → b ∉ pg.buttons →
      pg.buttons ≠ [] →
      (button_event w sid b false).2 = [Act.button pg.node b false] ∧
      ((button_event w sid b false).1.seats sid).grabber = some pg ∧
      (button_event w sid b false).1.nodes = w.nodes) ∧
    ((w.seats sid).grabber = none → button_event w sid b false = (w, [])) := by
  constructor
  · intro pg hg hb hne
    have he : pg.buttons.erase b = pg.buttons := List.erase_of_not_mem hb
    simp [button_event, hg, he, List.isEmpty_iff, hne]
  · intro hg
    simp [button_event, hg]

/-- Witness for the amended C4: the stale release of button 9 on the
concrete grab of node 3, and a release with no grab at all. -/
theorem c4_stale_release_keeps_grab_witness :
    ((button_event exGrab3World 0 9 false).2 = [Act.button 3 9 false] ∧
      ((button_event exGrab3World 0 9 false).1.seats 0).grabber = some ⟨3, [7]⟩ ∧
      (button_event exGrab3World 0 9 false).1.nodes = exGrab3World.nodes) ∧
    button_event exWorld 0 9 false = (exWorld, []) :=
  ⟨(c4_stale_release_keeps_grab exGrab3World 0 9).1 ⟨3, [7]⟩ (by decide) (by decide)
      (by decide),
    (c4_stale_release_keeps_grab exWorld 0 9).2 (by decide)⟩

/-- C8: key de-duplication and accepted-transition behaviour.  A press
of an already-pressed code or a release of a code not in the pressed set
is a complete no-op (no action at all, so no delivered key event and no
modifier-service call, and the pressed set is unchanged).  An accepted
press or release updates the pressed set, calls the modifier service
once, delivers the key to the seat's current keyboard-focus node and
then delivers the modifier snapshot exactly when the service reported a
change. -/
theorem c8_key_dedup (sc : Scene) (w : World) (sid : SeatId) (k : Nat) :
    (k ∈ (w.seats sid).pressed_keys → key_event sc w sid k true = (w, [])) ∧
    (k ∉ (w.seats sid).pressed_keys → key_event sc w sid k false = (w, [])) ∧
    (k ∉ (w.seats sid).pressed_keys →
      ((key_event sc w sid k true).1.seats sid).pressed_keys =
        (w.seats sid).pressed_keys ++ [k] ∧
      (key_event sc w sid k true).2 =
        [Act.modServiceCall k true,
          Act.kbSendKey (w.seats sid).keyboard_node k true] ++
        (match (sc.kbUpdate (w.seats sid).kb_state k true).1 with
          | some m => [Act.kbSendModifiers (w.seats sid).keyboard_node m]
          | none => [])) ∧
    (k ∈ (w.seats sid).pressed_keys →
      ((key_event sc w sid k false).1.seats sid).pressed_keys =
        (w.seats sid).pressed_keys.erase k ∧
      (key_event sc w sid k false).2 =
        [Act.modServiceCall k false,
          Act.kbSendKey (w.seats sid).keyboard_node k false] ++
        (match (sc.kbUpdate (w.seats sid).kb_state k false).1 with
          | some m => [Act.kbSendModifiers (w.seats sid).keyboard_node m]
          | none => [])) := by
  refine ⟨fun h => ?_, fun h => ?_, fun h => ?_, fun h => ?_⟩
  · simp [key_event, h]
  · simp [key_event, h]
  · simp [key_event, h]
  · simp [key_event, h]

/-- A concrete world whose only pressed key is 4, used by the C8
witness. -/
def exKeyWorld : World := { exWorld with seats := fun _ =>
  { exSeat with pressed_keys := [4] } }

/-- Witness for C8 on a concrete seat with key 4 pressed: duplicate
press and stale release are dropped, and the accepted release of key 4
feeds the service and delivers key then changed modifiers. -/
theorem c8_key_dedup_witness :
    (key_event exScene exKeyWorld 0 4 true = (exKeyWorld, []) ∧
      key_event exScene exKeyWorld 0 9 false = (exKeyWorld, [])) ∧
    ((key_event exScene exKeyWorld 0 4 false).1.seats 0).pressed_keys = [] ∧
    (key_event exScene exKeyWorld 0 4 false).2 =
      [Act.modServiceCall 4 false, Act.kbSendKey 0 4 false,
        Act.kbSendModifiers 0 ⟨4, 0, 0, 0⟩] := by
  refine ⟨⟨(c8_key_dedup exScene exKeyWorld 0 4).1 (by decide),
    (c8_key_dedup exScene exKeyWorld 0 9).2.1 (by decide)⟩, ?_⟩
  have h := (c8_key_dedup exScene exKeyWorld 0 4).2.2.2 (by decide)
  simpa [exScene, exKeyWorld, exSeat] using h

/-- C9: selection renegotiation on keyboard-focus transfer.  When the
old and new focus nodes belong to different clients, the seat's
selection produces exactly one `create_offer` for the new client when a
source is held and exactly one "no selection" notification otherwise,
and symmetrically for the primary selection; when both nodes belong to
the same client, no selection action of either kind is emitted. -/
theorem c9_cross_client_selection (sc : Scene) (w : World) (sid : SeatId) (n : NodeId)
    (k1 : ClientId)
    (hne : (w.seats sid).keyboard_node ≠ n)
    (hold : sc.clientId (w.seats sid).keyboard_node = some k1) :
    (k1 ≠ sc.surfaceClient n →
      (∀ src, (w.seats sid).selection = some src →
        ((focus_surface sc w sid n).2.filter Act.isRegSelection) =
          [Act.createOffer (sc.surfaceClient n)]) ∧
      ((w.seats sid).selection = none →
        ((focus_surface sc w sid n).2.filter Act.isRegSelection) =
          [Act.sendSelectionNone (sc.surfaceClient n)]) ∧
      (∀ src, (w.seats sid).primary_selection = some src →
        ((focus_surface sc w sid n).2.filter Act.isPrimSelection) =
          [Act.createPrimaryOffer (sc.surfaceClient n)]) ∧
      ((w.seats sid).primary_selection = none →
        ((focus_surface sc w sid n).2.filter Act.isPrimSelection) =
          [Act.sendPrimarySelectionNone (sc.surfaceClient n)])) ∧
    (k1 = sc.surfaceClient n →
      ((focus_surface sc w sid n).2.filter Act.isRegSelection) = [] ∧
      ((focus_surface sc w sid n).2.filter Act.isPrimSelection) = []) := by
  constructor
  · intro hk
    have hcond : sc.clientId (w.seats sid).keyboard_node ≠ some (sc.surfaceClient n) := by
      rw [hold]; exact fun h => hk (Option.some.injEq .. ▸ h)
    refine ⟨fun src hs => ?_, fun hs => ?_, fun src hs => ?_, fun hs => ?_⟩ <;>
      cases hps : (w.seats sid).primary_selection <;>
        cases hss : (w.seats sid).selection <;>
          simp_all [focus_surface, hne, hcond, Act.isRegSelection, Act.isPrimSelection,
            List.filter_append, apply_ite (List.filter Act.isRegSelection),
            apply_ite (List.filter Act.isPrimSelection)]
  · intro hk
    have hcond : sc.clientId (w.seats sid).keyboard_node = some (sc.surfaceClient n) := by
      rw [hold, hk]
    simp [focus_surface, hne, hcond, Act.isRegSelection, Act.isPrimSelection,
      List.filter_append, apply_ite (List.filter Act.isRegSelection),
      apply_ite (List.filter Act.isPrimSelection)]

/-- A concrete world whose seat holds a regular selection source, no
primary source, and keyboard focus on node 10 (a node of client 3),
used by the C9 witness. -/
def exSelWorld : World := { exWorld with seats := fun _ =>
  { exSeat with keyboard_node := 10, selection := some 1 } }

/-- Witness for C9: moving focus from node 10 (client 3) to node 12
(client 4) with a held selection source creates exactly one offer for
client 4 and sends exactly one primary "no selection"; moving to node 11
(also client 3) emits no selection action at all. -/
theorem c9_cross_client_selection_witness :
    (((focus_surface exScene exSelWorld 0 12).2.filter Act.isRegSelection) =
        [Act.createOffer 4] ∧
      ((focus_surface exScene exSelWorld 0 12).2.filter Act.isPrimSelection) =
        [Act.sendPrimarySelectionNone 4]) ∧
    (((focus_surface exScene exSelWorld 0 11).2.filter Act.isRegSelection) = [] ∧
      ((focus_surface exScene exSelWorld 0 11).2.filter Act.isPrimSelection) = []) := by
  have h1 := (c9_cross_client_selection exScene exSelWorld 0 12 3 (by decide) (by decide)).1
    (by decide)
  have h2 := (c9_cross_client_selection exScene exSelWorld 0 11 3 (by decide) (by decide)).2
    (by decide)
  exact ⟨⟨h1.1 1 (by decide), h1.2.2.2 (by decide)⟩, h2⟩

/-- C2: pointer-stack reconciliation with no active grab.  With the old
stack `[A, B, C]`, a new hit path `[A, B, D]` produces exactly
`pointer_untarget(C)`, `leave(C)` with its pointer-focus membership
removal, then the registration and `enter(D)` and finally
`pointer_target(D)` — no other enter or leave — leaving the stack
`[A, B, D]`; a new hit path `[A, B]` (strict prefix) produces exactly
`leave(C)` followed by `motion` to `B`, leaving the stack `[A, B]`. -/
theorem c2_pointer_stack_reconciliation (sc : Scene) (w : World) (sid : SeatId)
    (a b c d : NodeId) (x y : Fixed) (bx b2 dx d2 : Int)
    (hab : a ≠ b) (hac : a ≠ c) (had : a ≠ d) (hbc : b ≠ c) (hbd : b ≠ d) (hcd : c ≠ d)
    (hg : (w.seats sid).grabber = none)
    (hpos : (w.seats sid).pos = (x, y))
    (hroot : sc.root = a)
    (hstack : (w.seats sid).pointer_stack = [a, b, c]) :
    (sc.findTreeAt x.round_down y.round_down = [⟨b, bx, b2⟩, ⟨d, dx, d2⟩] →
      (handle_new_position sc w sid true).2 =
        [Act.pointerUntarget c, Act.leave c, Act.fociLeave c sid,
          Act.fociEnter d sid, Act.enter d (x.apply_fract dx) (y.apply_fract d2),
          Act.pointerTarget d] ∧
      ((handle_new_position sc w sid true).1.seats sid).pointer_stack = [a, b, d] ∧
      ((handle_new_position sc w sid true).1.nodes c).pointer_foci =
        (w.nodes c).pointer_foci.erase sid ∧
      ((handle_new_position sc w sid true).1.nodes d).pointer_foci =
        smInsert (w.nodes d).pointer_foci sid ∧
      (handle_new_position sc w sid true).1.nodes a = w.nodes a ∧
      (handle_new_position sc w sid true).1.nodes b = w.nodes b) ∧
    (sc.findTreeAt x.round_down y.round_down = [⟨b, bx, b2⟩] →
      (handle_new_position sc w sid true).2 =
        [Act.pointerUntarget c, Act.leave c, Act.fociLeave c sid,
          Act.motion b (x.apply_fract bx) (y.apply_fract b2),
          Act.pointerTarget b] ∧
      ((handle_new_position sc w sid true).1.seats sid).pointer_stack = [a, b] ∧
      ((handle_new_position sc w sid true).1.nodes c).pointer_foci =
        (w.nodes c).pointer_foci.erase sid ∧
      (handle_new_position sc w sid true).1.nodes a = w.nodes a ∧
      (handle_new_position sc w sid true).1.nodes b = w.nodes b ∧
      (handle_new_position sc w sid true).1.nodes d = w.nodes d) := by
  have hdc := hcd.symm
  have hca := hac.symm
  have hcb := hbc.symm
  have hda := had.symm
  have hdb := hbd.symm
  constructor
  · intro hft
    simp [handle_new_position, hg, hpos, hroot, hstack, hft, divergenceIdx,
      NodeSeatState.leave, NodeSeatState.enter, hab, hac, had, hbc, hbd, hcd,
      hdc, hca, hcb, hda, hdb, hab.symm]
  · intro hft
    simp [handle_new_position, hg, hpos, hroot, hstack, hft, divergenceIdx,
      NodeSeatState.leave, NodeSeatState.enter, hab, hac, had, hbc, hbd, hcd,
      hdc, hca, hcb, hda, hdb, hab.symm]

/-- A concrete world whose seat 0 has pointer stack `[0, 1, 3]` with
node 3 holding the matching pointer-focus membership, used by the C2
witness. -/
def exStackWorld : World := {
  seats := fun _ => { exSeat with pointer_stack := [0, 1, 3] }
  nodes := fun n => if n = 3 then ⟨[0], [], []⟩ else ⟨[], [], []⟩
  treeChanged := false }

/-- Witness for C2: under `exScene` the hit path at (0, 0) is
`[0, 1, 2]` while the stack is `[0, 1, 3]`, so exactly `leave(3)` and
`enter(2)` are emitted with the matching membership updates. -/
theorem c2_pointer_stack_reconciliation_witness :
    (handle_new_position exScene exStackWorld 0 true).2 =
      [Act.pointerUntarget 3, Act.leave 3, Act.fociLeave 3 0,
        Act.fociEnter 2 0, Act.enter 2 (-5120) (-5120), Act.pointerTarget 2] ∧
    ((handle_new_position exScene exStackWorld 0 true).1.seats 0).pointer_stack =
      [0, 1, 2] ∧
    ((handle_new_position exScene exStackWorld 0 true).1.nodes 3).pointer_foci = [] ∧
    ((handle_new_position exScene exStackWorld 0 true).1.nodes 2).pointer_foci = [0] := by
  have h := (c2_pointer_stack_reconciliation exScene exStackWorld 0 0 1 3 2 0 0
    (-10) (-10) (-20) (-20) (by decide) (by decide) (by decide) (by decide) (by decide)
    (by decide) (by decide) (by decide) (by decide) (by decide)).1 (by
      show exScene.findTreeAt (Fixed.round_down 0) (Fixed.round_down 0) = _
      decide)
  refine ⟨?_, ?_, ?_, ?_⟩
  · simpa using h.1
  · exact h.2.1
  · simpa [exStackWorld] using h.2.2.1
  · simpa [exStackWorld, smInsert] using h.2.2.2.1

/-- Recognizer for `active_changed(n, true)` notifications on a given
node. -/
def Act.isActiveTrueOn (n : NodeId) : Act → Bool
  | .activeChanged m b => m == n && b
  | _ => false

/-- C7 counterexample: in `exScene` nodes 10 and 11 both belong to
client 3.  Seat 0 focusing node 10 and then seat 1 focusing node 11
fires `active_changed(true)` twice (once on each node) even though the
client never lost keyboard focus, and a single seat moving focus from
node 10 to node 11 — a node-level move within one client — fires
`active_changed(10, false)` and `active_changed(11, true)`. -/
theorem c7_active_changed_counterexample :
    (((focus_surface exScene exWorld 0 10).2 ++
        (focus_surface exScene (focus_surface exScene exWorld 0 10).1 1 11).2).countP
      (fun a => Act.isActiveTrueOn 10 a || Act.isActiveTrueOn 11 a)) = 2 ∧
    ((focus_surface exScene (focus_surface exScene exWorld 0 10).1 0 11).2.contains
      (Act.activeChanged 10 false)) = true ∧
    ((focus_surface exScene (focus_surface exScene exWorld 0 10).1 0 11).2.contains
      (Act.activeChanged 11 true)) = true := by
  decide

/-- C7 amended: `active_changed` is a per-node edge, not a per-client
edge.  A focus transfer emits `active_changed(old, false)` exactly when
the old node loses its last focusing seat and `active_changed(new, true)`
exactly when the new node gains its first; consequently two seats
focusing the *same* node in sequence fire `active_changed(true)` on it
exactly once, while a move between two distinct nodes of one client
fires it on the new node again. -/
theorem c7_active_changed_per_node_edge (sc : Scene) (w : World) (sid : SeatId)
    (n : NodeId) (hne : (w.seats sid).keyboard_node ≠ n) :
    ((focus_surface sc w sid n).2.filter Act.isActiveChanged =
      (if ((w.nodes (w.seats sid).keyboard_node).kb_foci.erase sid).length = 0 then
        [Act.activeChanged (w.seats sid).keyboard_node false] else []) ++
      (if (smInsert (w.nodes n).kb_foci sid).length = 1 then
        [Act.activeChanged n true] else [])) ∧
    (∀ s1 s2 : SeatId, s1 ≠ s2 →
      (w.seats s1).keyboard_node ≠ n → (w.seats s2).keyboard_node ≠ n →
      (w.nodes n).kb_foci = [] →
      (((focus_surface sc w s1 n).2 ++
          (focus_surface sc (focus_surface sc w s1 n).1 s2 n).2).countP
        (Act.isActiveTrueOn n)) = 1) := by
  constructor
  · have hne' : n ≠ (w.seats sid).keyboard_node := hne.symm
    cases hs1 : (w.seats sid).selection <;>
      cases hp1 : (w.seats sid).primary_selection <;>
        simp [focus_surface, hne, hne', NodeSeatState.unfocus, NodeSeatState.focus,
          Act.isActiveChanged, List.filter_append, hs1, hp1,
          apply_ite (List.filter Act.isActiveChanged)]
  · intro s1 s2 h12 h1n h2n hfoci
    have h1n' : n ≠ (w.seats s1).keyboard_node := h1n.symm
    have h2n' : n ≠ (w.seats s2).keyboard_node := h2n.symm
    have h21 : s2 ≠ s1 := h12.symm
    cases hs1 : (w.seats s1).selection <;>
      cases hp1 : (w.seats s1).primary_selection <;>
        cases hs2 : (w.seats s2).selection <;>
          cases hp2 : (w.seats s2).primary_selection <;>
            simp [focus_surface, h1n, h1n', h2n, h2n', h12, h21, hfoci,
              NodeSeatState.unfocus, NodeSeatState.focus, smInsert,
              Act.isActiveTrueOn, List.countP_append, hs1, hp1, hs2, hp2,
              apply_ite (List.countP (Act.isActiveTrueOn n))]

/-- Witness for the amended C7: seat 0 focusing node 10 fires the
per-node edges on the root and on node 10, and seats 0 then 1 focusing
the same node 10 fire `active_changed(10, true)` exactly once. -/
theorem c7_active_changed_per_node_edge_witness :
    (focus_surface exScene exWorld 0 10).2.filter Act.isActiveChanged =
      [Act.activeChanged 0 false, Act.activeChanged 10 true] ∧
    (((focus_surface exScene exWorld 0 10).2 ++
        (focus_surface exScene (focus_surface exScene exWorld 0 10).1 1 10).2).countP
      (Act.isActiveTrueOn 10)) = 1 := by
  have h := c7_active_changed_per_node_edge exScene exWorld 0 10 (by decide)
  exact ⟨by simpa using h.1, h.2 0 1 (by decide) (by decide) (by decide) (by decide)⟩

/-- The grab-clearing loop resets exactly the grab fields of the seats
listed in the node's grab records and touches no other seat. -/
theorem grabClear_foldl_seats (l : List SeatId) (w : World) (s : SeatId) :
    (l.foldl grabClearStep w).seats s =
      if s ∈ l then { w.seats s with grabber := none } else w.seats s := by
  induction l generalizing w with
  | nil => simp
  | cons a l ih =>
    simp only [List.foldl_cons, ih, List.mem_cons]
    by_cases hsa : s = a
    · subst hsa
      by_cases hsl : s ∈ l <;> simp [hsl, grabClearStep]
    · by_cases hsl : s ∈ l <;> simp [hsl, hsa, grabClearStep]

/-- The grab-clearing loop leaves every node ledger unchanged. -/
theorem grabClear_foldl_nodes (l : List SeatId) (w : World) :
    (l.foldl grabClearStep w).nodes = w.nodes := by
  induction l generalizing w with
  | nil => rfl
  | cons a l ih => simp [ih, grabClearStep]

/-- The pointer-focus loop of destruction never touches a grab field. -/
theorem ptrClear_foldl_grabber (node : NodeId) (l : List SeatId) (w : World) (s : SeatId) :
    ((l.foldl (ptrClearStep node) w).seats s).grabber = (w.seats s).grabber := by
  induction l generalizing w with
  | nil => rfl
  | cons a l ih =>
    rw [List.foldl_cons, ih]
    by_cases hsa : s = a <;> simp [ptrClearStep, hsa]

/-- The pointer-focus loop of destruction leaves every node ledger
unchanged. -/
theorem ptrClear_foldl_nodes (node : NodeId) (l : List SeatId) (w : World) :
    (l.foldl (ptrClearStep node) w).nodes = w.nodes := by
  induction l generalizing w with
  | nil => rfl
  | cons a l ih => simp [ih, ptrClearStep]

/-- A keyboard-focus transfer never touches any seat's grab field. -/
theorem focus_surface_grabber (sc : Scene) (w : World) (sid : SeatId) (n : NodeId)
    (s : SeatId) :
    ((focus_surface sc w sid n).1.seats s).grabber = (w.seats s).grabber := by
  rcases eq_or_ne (w.seats sid).keyboard_node n with h | h
  · simp [focus_surface, h]
  · by_cases hs : s = sid <;> simp [focus_surface, h, hs]

/-- A keyboard-focus transfer never touches any node's grab records. -/
theorem focus_surface_nodes_grabs (sc : Scene) (w : World) (sid : SeatId) (n : NodeId)
    (m : NodeId) :
    ((focus_surface sc w sid n).1.nodes m).grabs = (w.nodes m).grabs := by
  rcases eq_or_ne (w.seats sid).keyboard_node n with h | h
  · simp [focus_surface, h]
  · rcases eq_or_ne m n with hmn | hmn <;>
      rcases eq_or_ne m (w.seats sid).keyboard_node with hmo | hmo <;>
        simp_all [focus_surface, NodeSeatState.focus, NodeSeatState.unfocus]

/-- The keyboard-focus loop of destruction never touches a grab field. -/
theorem kbClear_foldl_grabber (sc : Scene) (l : List SeatId) (acc : World × List Act)
    (s : SeatId) :
    ((l.foldl (kbClearStep sc) acc).1.seats s).grabber = (acc.1.seats s).grabber := by
  induction l generalizing acc with
  | nil => rfl
  | cons a l ih =>
    rw [List.foldl_cons, ih]
    unfold kbClearStep
    rcases hm : ((acc.1.updSeat a fun st =>
        { st with keyboard_node := sc.root }).seats a).toplevel_focus_history.getLast? with
      _ | tl
    · simp only [hm]
      by_cases hsa : s = a <;> simp [hsa]
    · simp only [hm, focus_xdg_surface, focus_surface_grabber]
      by_cases hsa : s = a <;> simp [hsa]

/-- The keyboard-focus loop of destruction never touches any node's
grab records. -/
theorem kbClear_foldl_nodes_grabs (sc : Scene) (l : List SeatId) (acc : World × List Act)
    (m : NodeId) :
    ((l.foldl (kbClearStep sc) acc).1.nodes m).grabs = (acc.1.nodes m).grabs := by
  induction l generalizing acc with
  | nil => rfl
  | cons a l ih =>
    rw [List.foldl_cons, ih]
    unfold kbClearStep
    rcases hm : (acc.1.seats a).toplevel_focus_history.getLast? with _ | tl
    · simp [hm]
    · simp [hm, focus_xdg_surface, focus_surface_nodes_grabs]

/-- C5: `destroy_node` clears grabs on both sides.  Under the symmetric
storage invariant (every seat whose grab field targets the node is
listed in the node's grab records), after `destroy_node` the node's grab
records are empty and no seat's grab field targets the node any more, so
no subsequent position update or button event can be routed to the
destroyed node as a grab target. -/
theorem c5_destroy_clears_all_grabs (sc : Scene) (w : World) (node : NodeId)
    (hsym : ∀ s g, (w.seats s).grabber = some g → g.node = node →
      s ∈ (w.nodes node).grabs) :
    ((destroy_node sc w node).1.nodes node).grabs = [] ∧
    ∀ s g, ((destroy_node sc w node).1.seats s).grabber = some g → g.node ≠ node := by
  have hres : (destroy_node sc w node).1 =
      (((w.nodes node).kb_foci.reverse.foldl (kbClearStep sc)
        ((((w.nodes node).pointer_foci.reverse.foldl (ptrClearStep node)
          (((w.nodes node).grabs.foldl grabClearStep w).updNode node
            fun n => { n with grabs := [] }))).updNode node
          fun n => { n with pointer_foci := [] }, [])).1).updNode node
        (fun n => { n with kb_foci := [] }) := rfl
  constructor
  · simp only [hres, World.updNode_nodes_self, kbClear_foldl_nodes_grabs,
      World.updNode_seats, ptrClear_foldl_nodes, grabClear_foldl_nodes,
      World.updNode_nodes_ne]
  · intro s g hsome heq
    simp only [hres, World.updNode_seats, kbClear_foldl_grabber,
      ptrClear_foldl_grabber, grabClear_foldl_seats] at hsome
    by_cases hs : s ∈ (w.nodes node).grabs
    · simp [hs] at hsome
    · simp [hs] at hsome
      exact hs (hsym s g hsome heq)

/-- A concrete world in which only seat 0 grabs node 3 and node 3
records that grab, used by the C5 witness. -/
def exC5World : World := {
  seats := fun s => if s = 0 then { exSeat with grabber := some ⟨3, [7]⟩ } else exSeat
  nodes := fun n => if n = 3 then ⟨[], [], [0]⟩ else ⟨[], [], []⟩
  treeChanged := false }

/-- Witness for C5 at the concrete grab of node 3 by seat 0. -/
theorem c5_destroy_clears_all_grabs_witness :
    ((destroy_node exScene exC5World 3).1.nodes 3).grabs = [] ∧
    ∀ s g, ((destroy_node exScene exC5World 3).1.seats s).grabber = some g →
      g.node ≠ 3 :=
  c5_destroy_clears_all_grabs exScene exC5World 3 (by
    intro s g hg heq
    by_cases hs : s = 0 <;> simp_all [exC5World, exSeat])

/-- The destruction pop loop on a reversed stack pops everything up to
and including the first occurrence of the destroyed node. -/
theorem popThroughRev_append (node : NodeId) (q r : List NodeId) (h : node ∉ q) :
    popThroughRev node (q ++ node :: r) = r := by
  induction q with
  | nil => simp [popThroughRev]
  | cons a q ih =>
    have ha : a ≠ node := by
      rintro rfl
      exact h (List.mem_cons_self ..)
    have h' : node ∉ q := fun hm => h (List.mem_cons_of_mem _ hm)
    simp [popThroughRev, ha, ih h']

/-- Popping a stack through the topmost occurrence of the destroyed
node leaves exactly the part below it. -/
theorem popThrough_split (node : NodeId) (pre post : List NodeId) (h : node ∉ post) :
    popThrough (pre ++ node :: post) node = pre := by
  unfold popThrough
  rw [List.reverse_append, List.reverse_cons, List.append_assoc, List.singleton_append,
    popThroughRev_append node _ _ (by simpa using h)]
  exact List.reverse_reverse pre

/-- The grab-clearing loop never changes a seat's toplevel focus
history. -/
theorem grabClear_foldl_history (l : List SeatId) (w : World) (s : SeatId) :
    ((l.foldl grabClearStep w).seats s).toplevel_focus_history =
      (w.seats s).toplevel_focus_history := by
  rw [grabClear_foldl_seats]
  split <;> rfl

/-- The grab-clearing loop never changes a seat's pointer stack. -/
theorem grabClear_foldl_pointer_stack (l : List SeatId) (w : World) (s : SeatId) :
    ((l.foldl grabClearStep w).seats s).pointer_stack = (w.seats s).pointer_stack := by
  rw [grabClear_foldl_seats]
  split <;> rfl

/-- The pointer-focus loop of destruction never changes a seat's
toplevel focus history. -/
theorem ptrClear_foldl_history (node : NodeId) (l : List SeatId) (w : World) (s : SeatId) :
    ((l.foldl (ptrClearStep node) w).seats s).toplevel_focus_history =
      (w.seats s).toplevel_focus_history := by
  induction l generalizing w with
  | nil => rfl
  | cons a l ih =>
    rw [List.foldl_cons, ih]
    by_cases hsa : s = a <;> simp [ptrClearStep, hsa]

/-- The pointer-focus loop of destruction, over a duplicate-free seat
list (`SmallMap` keys are unique), pops the stack of exactly the listed
seats through the destroyed node and leaves every other seat alone. -/
theorem ptrClear_foldl_seats (node : NodeId) (l : List SeatId) (w : World) (s : SeatId)
    (hl : l.Nodup) :
    (l.foldl (ptrClearStep node) w).seats s =
      if s ∈ l then
        { w.seats s with pointer_stack := popThrough (w.seats s).pointer_stack node }
      else w.seats s := by
  induction l generalizing w with
  | nil => simp
  | cons a l ih =>
    rcases List.nodup_cons.mp hl with ⟨ha, hl2⟩
    rw [List.foldl_cons, ih _ hl2]
    by_cases hsa : s = a
    · subst hsa
      simp [ha, ptrClearStep]
    · by_cases hsl : s ∈ l <;> simp [ptrClearStep, hsa, hsl]

/-- The pointer-focus loop of destruction raises the tree-changed
signal exactly when it processes at least one seat. -/
theorem ptrClear_foldl_treeChanged (node : NodeId) (l : List SeatId) (w : World) :
    (l.foldl (ptrClearStep node) w).treeChanged =
      if l.isEmpty then w.treeChanged else true := by
  induction l generalizing w with
  | nil => rfl
  | cons a l ih =>
    rw [List.foldl_cons, ih]
    simp [ptrClearStep]

/-- A keyboard-focus transfer leaves every other seat untouched. -/
theorem focus_surface_seats_ne (sc : Scene) (w : World) (sid : SeatId) (n : NodeId)
    (s : SeatId) (hs : s ≠ sid) :
    (focus_surface sc w sid n).1.seats s = w.seats s := by
  rcases eq_or_ne (w.seats sid).keyboard_node n with h | h <;>
    simp [focus_surface, h, hs]

/-- A keyboard-focus transfer never changes any seat's pointer stack. -/
theorem focus_surface_pointer_stack (sc : Scene) (w : World) (sid : SeatId) (n : NodeId)
    (s : SeatId) :
    ((focus_surface sc w sid n).1.seats s).pointer_stack = (w.seats s).pointer_stack := by
  rcases eq_or_ne (w.seats sid).keyboard_node n with h | h
  · simp [focus_surface, h]
  · by_cases hs : s = sid <;> simp [focus_surface, h, hs]

/-- A keyboard-focus transfer never touches the tree-changed signal. -/
theorem focus_surface_treeChanged (sc : Scene) (w : World) (sid : SeatId) (n : NodeId) :
    (focus_surface sc w sid n).1.treeChanged = w.treeChanged := by
  rcases eq_or_ne (w.seats sid).keyboard_node n with h | h <;> simp [focus_surface, h]

/-- The keyboard-focus node of the transferring seat after a transfer:
unchanged when the target was already focused, the target otherwise. -/
theorem focus_surface_keyboard_self (sc : Scene) (w : World) (sid : SeatId) (n : NodeId) :
    ((focus_surface sc w sid n).1.seats sid).keyboard_node =
      if (w.seats sid).keyboard_node = n then (w.seats sid).keyboard_node else n := by
  rcases eq_or_ne (w.seats sid).keyboard_node n with h | h <;> simp [focus_surface, h]

/-- One keyboard-clearing iteration of destruction leaves every other
seat untouched. -/
theorem kbClearStep_seats_ne (sc : Scene) (acc : World × List Act) (a s : SeatId)
    (hs : s ≠ a) : (kbClearStep sc acc a).1.seats s = acc.1.seats s := by
  unfold kbClearStep
  rcases hm : (acc.1.seats a).toplevel_focus_history.getLast? with _ | tl
  · simp [hm, hs]
  · simp [hm, focus_xdg_surface, focus_surface_seats_ne, hs]

/-- One keyboard-clearing iteration of destruction never changes any
seat's pointer stack. -/
theorem kbClearStep_pointer_stack (sc : Scene) (acc : World × List Act) (a s : SeatId) :
    ((kbClearStep sc acc a).1.seats s).pointer_stack = (acc.1.seats s).pointer_stack := by
  unfold kbClearStep
  rcases hm : (acc.1.seats a).toplevel_focus_history.getLast? with _ | tl
  · by_cases hsa : s = a <;> simp [hm, hsa]
  · by_cases hsa : s = a <;>
      simp [hm, focus_xdg_surface, focus_surface_pointer_stack, hsa]

/-- One keyboard-clearing iteration of destruction never touches the
tree-changed signal. -/
theorem kbClearStep_treeChanged (sc : Scene) (acc : World × List Act) (a : SeatId) :
    (kbClearStep sc acc a).1.treeChanged = acc.1.treeChanged := by
  unfold kbClearStep
  rcases hm : (acc.1.seats a).toplevel_focus_history.getLast? with _ | tl
  · simp [hm]
  · simp [hm, focus_xdg_surface, focus_surface_treeChanged]

/-- The keyboard-focus loop of destruction leaves every unlisted seat
untouched. -/
theorem kbClear_foldl_seats_ne (sc : Scene) (l : List SeatId) (acc : World × List Act)
    (s : SeatId) (hs : s ∉ l) :
    (l.foldl (kbClearStep sc) acc).1.seats s = acc.1.seats s := by
  induction l generalizing acc with
  | nil => rfl
  | cons a l ih =>
    have hsa : s ≠ a := fun h => hs (h ▸ List.mem_cons_self ..)
    have hs2 : s ∉ l := fun h => hs (List.mem_cons_of_mem _ h)
    rw [List.foldl_cons, ih _ hs2, kbClearStep_seats_ne sc acc a s hsa]

/-- The keyboard-focus loop of destruction never changes any seat's
pointer stack. -/
theorem kbClear_foldl_pointer_stack (sc : Scene) (l : List SeatId)
    (acc : World × List Act) (s : SeatId) :
    ((l.foldl (kbClearStep sc) acc).1.seats s).pointer_stack =
      (acc.1.seats s).pointer_stack := by
  induction l generalizing acc with
  | nil => rfl
  | cons a l ih => rw [List.foldl_cons, ih, kbClearStep_pointer_stack]

/-- The keyboard-focus loop of destruction never touches the
tree-changed signal. -/
theorem kbClear_foldl_treeChanged (sc : Scene) (l : List SeatId)
    (acc : World × List Act) :
    (l.foldl (kbClearStep sc) acc).1.treeChanged = acc.1.treeChanged := by
  induction l generalizing acc with
  | nil => rfl
  | cons a l ih => rw [List.foldl_cons, ih, kbClearStep_treeChanged]

/-- The keyboard-focus loop of destruction, over a duplicate-free seat
list (`SmallMap` keys are unique), leaves each listed seat with keyboard
focus on the scene root when its toplevel focus history is empty, and
otherwise on the focus surface of the history's most recent toplevel
(which is the root itself only in the degenerate case where that focus
surface *is* the root). -/
theorem kbClear_foldl_keyboard_mem (sc : Scene) (l : List SeatId)
    (acc : World × List Act) (hl : l.Nodup) (s : SeatId) (hs : s ∈ l) :
    ((l.foldl (kbClearStep sc) acc).1.seats s).keyboard_node =
      match (acc.1.seats s).toplevel_focus_history.getLast? with
      | none => sc.root
      | some tl =>
        if sc.root = sc.focusSurfaceOf tl then sc.root else sc.focusSurfaceOf tl := by
  induction l generalizing acc with
  | nil => cases hs
  | cons a l ih =>
    rcases List.nodup_cons.mp hl with ⟨ha, hl2⟩
    rw [List.foldl_cons]
    rcases List.mem_cons.mp hs with rfl | hsl
    · rw [kbClear_foldl_seats_ne sc l _ s ha]
      unfold kbClearStep
      rcases hm : (acc.1.seats s).toplevel_focus_history.getLast? with _ | tl
      · simp [hm]
      · simp only [World.updSeat_seats_self, hm]
        rw [focus_xdg_surface, focus_surface_keyboard_self]
        simp
    · have hsa : s ≠ a := fun h => ha (h ▸ hsl)
      rw [ih _ hl2 hsl, kbClearStep_seats_ne sc acc a s hsa]

/-- C6: destruction keyboard fallback and pointer-stack popping, for
every affected seat.  The only assumption is that the node's ledger
lists are duplicate-free, which is the `SmallMap` key-uniqueness
invariant.  Every seat with keyboard focus on the destroyed node whose
toplevel focus history is non-empty with most recent entry `t2` ends
with keyboard focus on the focus surface of `t2` (given that this is
not the scene root) and not on the scene root; every seat with pointer
focus on the node has its stack popped down to and including the node
(stated both as `popThrough` and on an explicit decomposition of the
stack at the node's topmost occurrence); and when at least one seat
held pointer focus the recompute-hit-test signal is raised. -/
theorem c6_destroy_keyboard_fallback (sc : Scene) (w : World) (X : NodeId)
    (hkbn : (w.nodes X).kb_foci.Nodup)
    (hptrn : (w.nodes X).pointer_foci.Nodup) :
    (∀ s, s ∈ (w.nodes X).kb_foci → ∀ t2,
      (w.seats s).toplevel_focus_history.getLast? = some t2 →
      sc.focusSurfaceOf t2 ≠ sc.root →
      ((destroy_node sc w X).1.seats s).keyboard_node = sc.focusSurfaceOf t2 ∧
      ((destroy_node sc w X).1.seats s).keyboard_node ≠ sc.root) ∧
    (∀ sp, sp ∈ (w.nodes X).pointer_foci →
      ((destroy_node sc w X).1.seats sp).pointer_stack =
        popThrough (w.seats sp).pointer_stack X ∧
      ∀ pre post, (w.seats sp).pointer_stack = pre ++ X :: post → X ∉ post →
        ((destroy_node sc w X).1.seats sp).pointer_stack = pre) ∧
    ((w.nodes X).pointer_foci ≠ [] → (destroy_node sc w X).1.treeChanged = true) := by
  have hres : (destroy_node sc w X).1 =
      (((w.nodes X).kb_foci.reverse.foldl (kbClearStep sc)
        ((((w.nodes X).pointer_foci.reverse.foldl (ptrClearStep X)
          (((w.nodes X).grabs.foldl grabClearStep w).updNode X
            fun n => { n with grabs := [] }))).updNode X
          fun n => { n with pointer_foci := [] }, [])).1).updNode X
        (fun n => { n with kb_foci := [] }) := rfl
  refine ⟨?_, ?_, ?_⟩
  · intro s hs t2 ht2 hnf
    have hkey : ((destroy_node sc w X).1.seats s).keyboard_node = sc.focusSurfaceOf t2 := by
      rw [hres]
      simp only [World.updNode_seats]
      rw [kbClear_foldl_keyboard_mem sc _ _ (List.nodup_reverse.mpr hkbn) s
        (List.mem_reverse.mpr hs)]
      simp only [World.updNode_seats]
      rw [ptrClear_foldl_history, World.updNode_seats, grabClear_foldl_history, ht2]
      exact if_neg (Ne.symm hnf)
    exact ⟨hkey, hkey ▸ hnf⟩
  · intro sp hsp
    have hstk : ((destroy_node sc w X).1.seats sp).pointer_stack =
        popThrough (w.seats sp).pointer_stack X := by
      rw [hres]
      simp only [World.updNode_seats]
      rw [kbClear_foldl_pointer_stack]
      simp only [World.updNode_seats]
      rw [ptrClear_foldl_seats X _ _ sp (List.nodup_reverse.mpr hptrn),
        if_pos (List.mem_reverse.mpr hsp)]
      simp only [World.updNode_seats]
      rw [show ∀ st : SeatState, ∀ v,
        ({ st with pointer_stack := v } : SeatState).pointer_stack = v from fun _ _ => rfl]
      rw [grabClear_foldl_pointer_stack]
    refine ⟨hstk, fun pre post hdec hpost => ?_⟩
    rw [hstk, hdec, popThrough_split X pre post hpost]
  · intro hne
    rw [hres]
    simp only [World.updNode_treeChanged]
    rw [kbClear_foldl_treeChanged]
    simp only [World.updNode_treeChanged]
    rw [ptrClear_foldl_treeChanged]
    simp [List.isEmpty_iff, hne]

/-- The seat state of the C6 witness: keyboard and pointer focus on
node 3, an active grab of node 3 held with button 7, and toplevel focus
history `[4, 5]`. -/
def exC6Seat : SeatState :=
  { exSeat with pointer_stack := [0, 1, 3], keyboard_node := 3,
                grabber := some ⟨3, [7]⟩,
                toplevel_focus_history := [4, 5] }

/-- The concrete world of the C6 witness: seat 0 in `exC6Seat`, node 3
recording that seat's keyboard focus, pointer focus and grab. -/
def exC6World : World := {
  seats := fun s => if s = 0 then exC6Seat else exSeat
  nodes := fun n => if n = 3 then ⟨[0], [0], [0]⟩ else ⟨[], [], []⟩
  treeChanged := false }

/-- Witness for C6: destroying the grabbed node 3 refocuses seat 0 on
node 105, the focus surface of the most recent toplevel 5, pops the
stack to `[0, 1]` and raises the tree-changed signal. -/
theorem c6_destroy_keyboard_fallback_witness :
    ((destroy_node exScene exC6World 3).1.seats 0).keyboard_node = 105 ∧
    ((destroy_node exScene exC6World 3).1.seats 0).keyboard_node ≠ exScene.root ∧
    ((destroy_node exScene exC6World 3).1.seats 0).pointer_stack = [0, 1] ∧
    (destroy_node exScene exC6World 3).1.treeChanged = true := by
  have h := c6_destroy_keyboard_fallback exScene exC6World 3 (by decide) (by decide)
  have hk := h.1 0 (by decide) 5 (by decide) (by decide)
  have hp := (h.2.1 0 (by decide)).2 [0, 1] [] (by decide) (by decide)
  have ht := h.2.2 (by decide)
  refine ⟨?_, ?_, hp, ht⟩
  · simpa [exScene] using hk.1
  · simpa [exScene] using hk.2
